import Mathlib

/-!
Shallow embedding of `src/script.js` (class `CurrencyConverter`) from the
currency_convert_app repository.

The relevant runtime state is `this.exchangeRates`, a JavaScript object
mapping a base-currency code to a rate table (itself an object mapping a
currency code to a number).  We model both levels as association lists over
`String` keys with rational values; rational arithmetic stands in for JS
float arithmetic, with the JS-specific non-numbers (`undefined`, `NaN`,
`Infinity`) modelled explicitly by the `JsVal` type, because the code's
`||`-fallbacks and divisions make them observable.

Network effects (`fetch` / `response.json()`) are modelled by passing the
outcome of each fetch as an explicit parameter, so every function of the
source becomes a pure function of its inputs and the cache.  Since `to` is
a reserved token in Lean, the source's `to` parameter is named `tgt`.
-/

abbrev Code := String

/-- A rate table: a JS object mapping a currency code to a number. -/
abbrev RateTable := List (Code × ℚ)

/-- The cache `this.exchangeRates`: a JS object mapping a base code to a table. -/
abbrev RateCache := List (Code × RateTable)

/-- A JSON body returned by a rates endpoint: either a `{ rates: ... }`
wrapper or a bare mapping.  (Both shapes occur; `data.rates || data`
selects the table either way, a JS object being always truthy.) -/
inductive ApiResponse where
  | wrapped (rates : RateTable)
  | bare (tbl : RateTable)
deriving DecidableEq

/-- Models the JS idiom `data.rates || data` applied to a rates response. -/
def extractRates : ApiResponse → RateTable
  | .wrapped r => r
  | .bare t => t

/-- Outcome of one `fetch` in `loadExchangeRates`: the fetch itself can
throw (`netThrow`), or deliver a response with an `ok` flag and a body
whose `json()` either parses (`Except.ok`) or throws (`Except.error`). -/
inductive FetchResult where
  | netThrow
  | resp (ok : Bool) (body : Except Unit ApiResponse)

/-- Outcome of the fetch inside `getExchangeRate`, which never consults
`response.ok`: either the `fetch`/`json()` chain throws (`fail`) or it
yields a parsed body (`ok`). -/
inductive Fetched where
  | fail
  | ok (data : ApiResponse)

/-- A JS number-or-miss value as it flows through `getExchangeRate`:
a property miss gives `undefined`, division can give `NaN` or `Infinity`. -/
inductive JsVal where
  | undefined
  | nan
  | inf (pos : Bool)
  | num (q : ℚ)
deriving DecidableEq

/-- JS truthiness of a `JsVal` (`undefined`, `NaN` and `0` are falsy). -/
def truthy : JsVal → Bool
  | .undefined => false
  | .nan => false
  | .inf _ => true
  | .num q => decide (q ≠ 0)

/-- JS `1 / v`: `1/undefined = NaN`, `1/0 = Infinity`, `1/Infinity = 0`. -/
def jsInv : JsVal → JsVal
  | .undefined => .nan
  | .nan => .nan
  | .inf _ => .num 0
  | .num q => if q = 0 then .inf true else .num q⁻¹

/-- JS multiplication on `JsVal` (`undefined` coerces to `NaN`;
`Infinity * 0 = NaN`; signs multiply). -/
def jsMul : JsVal → JsVal → JsVal
  | .undefined, _ => .nan
  | _, .undefined => .nan
  | .nan, _ => .nan
  | _, .nan => .nan
  | .inf p, .inf p' => .inf (p == p')
  | .inf p, .num q => if q = 0 then .nan else .inf (p == decide (0 < q))
  | .num q, .inf p => if q = 0 then .nan else .inf (p == decide (0 < q))
  | .num q, .num q' => .num (q * q')

/-- JS property read `tbl[k]` on a rate table: the number, or `undefined`. -/
def jsLookup (t : RateTable) (k : Code) : JsVal :=
  match t.lookup k with
  | some q => .num q
  | none => .undefined

/-- JS assignment `obj[k] = v`: replaces the value at an existing key in
place, otherwise appends the new key (JS insertion order). -/
def cacheInsert (c : RateCache) (k : Code) (v : RateTable) : RateCache :=
  if (c.lookup k).isSome then
    c.map (fun p => if p.1 = k then (k, v) else p)
  else c ++ [(k, v)]

/-- The errors `getExchangeRate` can let escape: the rethrown fetch error
(line 143), or the `TypeError` from reading a property of `undefined` when
the table for the target currency is missing (line 147). -/
inductive JsError where
  | fetchErr
  | typeErr
deriving DecidableEq

/-- Models line 147 of `script.js`:
`return this.exchangeRates[from][to] || (1 / this.exchangeRates[to][from])`,
evaluated on cache `c` (the right operand only when the left is falsy). -/
def rateFromTable (c : RateCache) (frm tgt : Code) : Except JsError JsVal :=
  match c.lookup frm with
  | none => .error .typeErr
  | some tf =>
    let direct := jsLookup tf tgt
    if truthy direct then .ok direct
    else
      match c.lookup tgt with
      | none => .error .typeErr
      | some tt => .ok (jsInv (jsLookup tt frm))

/-- Models `getExchangeRate(from, to)` (lines 129–148 of `script.js`),
with the outcome of the `fetch(baseUrl + from)` chain passed in as
`fetched`.  Returns the thrown error or returned value, together with the
cache after the call. -/
def getExchangeRate (fetched : Fetched) (c : RateCache) (frm tgt : Code) :
    Except JsError JsVal × RateCache :=
  match c.lookup frm with
  | some _ => (rateFromTable c frm tgt, c)
  | none =>
    match fetched with
    | .ok data =>
      let c1 := cacheInsert c frm (extractRates data)
      (rateFromTable c1 frm tgt, c1)
    | .fail =>
      match c.lookup "USD" with
      | some usd => (.ok (jsMul (jsLookup usd tgt) (jsInv (jsLookup usd frm))), c)
      | none => (.error .fetchErr, c)

/-- What `convertCurrency` surfaces to the UI: the input-validation error
message, a shown result (converted amount and rate), or the generic
conversion-failed message from the `catch`. -/
inductive ConvertOutcome where
  | inputError
  | shown (converted : JsVal) (rate : JsVal)
  | convFailed
deriving DecidableEq

/-- Models `convertCurrency()` (lines 102–127 of `script.js`).  The amount
is the result of `parseFloat` on the input field: `none` stands for `NaN`
(non-numeric input).  `fetched` is the outcome of the fetch that
`getExchangeRate` would perform if invoked. -/
def convertCurrency (amount : Option ℚ) (frm tgt : Code) (fetched : Fetched)
    (c : RateCache) : ConvertOutcome × RateCache :=
  match amount with
  | none => (.inputError, c)
  | some a =>
    if a ≤ 0 then (.inputError, c)
    else if frm = tgt then (.shown (.num a) (.num 1), c)
    else
      match getExchangeRate fetched c frm tgt with
      | (.ok rate, c') => (.shown (jsMul (.num a) rate) rate, c')
      | (.error _, c') => (.convFailed, c')

/-- The hardcoded fallback USD table of `loadFallbackRates` (lines 86–100). -/
def fallbackTable : RateTable :=
  [("EUR", 0.85), ("GBP", 0.73), ("JPY", 110), ("AUD", 1.35), ("CAD", 1.25),
   ("CHF", 0.92), ("CNY", 6.45), ("INR", 74.5), ("TRY", 8.5), ("USD", 1)]

/-- Models `loadExchangeRates()` (lines 58–84 of `script.js`).  `primary`
is the fetch of `baseUrl + USD`, `secondary` the fetch of the fallback
URL (attempted only when the primary response is not ok; its own `ok`
flag is never checked), `eurF` the opportunistic fetch of `baseUrl + EUR`.
Returns the cache after the call and whether the `catch` branch ran
(warning shown and `loadFallbackRates` invoked). -/
def loadExchangeRates (primary secondary eurF : FetchResult) (c : RateCache) :
    RateCache × Bool :=
  match primary with
  | .netThrow => (cacheInsert c "USD" fallbackTable, true)
  | .resp ok body =>
    let chosenBody : Option (Except Unit ApiResponse) :=
      if ok then some body
      else
        match secondary with
        | .netThrow => none
        | .resp _ body2 => some body2
    match chosenBody with
    | none => (cacheInsert c "USD" fallbackTable, true)
    | some (.error _) => (cacheInsert c "USD" fallbackTable, true)
    | some (.ok data) =>
      let c1 := cacheInsert c "USD" (extractRates data)
      match eurF with
      | .netThrow => (cacheInsert c1 "USD" fallbackTable, true)
      | .resp ok2 body2 =>
        if ok2 then
          match body2 with
          | .error _ => (cacheInsert c1 "USD" fallbackTable, true)
          | .ok eurData => (cacheInsert c1 "EUR" (extractRates eurData), false)
        else (c1, false)

/-- Whether the opportunistic EUR step of `loadExchangeRates` throws: its
fetch throws, or its response is ok and `json()` throws (a not-ok EUR
response is skipped silently). -/
def eurFetchThrows : FetchResult → Bool
  | .netThrow => true
  | .resp ok2 body2 => ok2 && (match body2 with | .error _ => true | .ok _ => false)

/-- The conditions under which the `try` block of `loadExchangeRates`
throws (so the `catch` runs): the primary fetch throws; the primary
response is not ok and the secondary fetch throws; the selected body's
`json()` throws; or the EUR step throws. -/
def startupThrows (primary secondary eurF : FetchResult) : Bool :=
  match primary with
  | .netThrow => true
  | .resp ok body =>
    let chosenBody : Option (Except Unit ApiResponse) :=
      if ok then some body
      else
        match secondary with
        | .netThrow => none
        | .resp _ body2 => some body2
    match chosenBody with
    | none => true
    | some (.error _) => true
    | some (.ok _) => eurFetchThrows eurF

/-! ### Basic properties of the cache operations -/

theorem lookup_eq_none_iff (c : RateCache) (k : Code) :
    c.lookup k = none ↔ k ∉ c.map Prod.fst := by
  induction c with
  | nil => simp
  | cons p t ih =>
    obtain ⟨a, b⟩ := p
    by_cases hak : k = a
    · subst hak; simp [List.lookup_cons]
    · have hf : (k == a) = false := by simp [hak]
      simp [List.lookup_cons, hf, ih, hak]

theorem lookup_append_singleton_ne (t : RateCache) (k k' : Code) (v : RateTable)
    (hne : k' ≠ k) : List.lookup k' (t ++ [(k, v)]) = List.lookup k' t := by
  induction t with
  | nil =>
    have hf : (k' == k) = false := by simp [hne]
    simp [List.lookup_cons, hf]
  | cons p t ih =>
    obtain ⟨a, b⟩ := p
    by_cases hk'a : k' = a
    · subst hk'a; simp [List.lookup_cons]
    · have hf : (k' == a) = false := by simp [hk'a]
      simp [List.lookup_cons, hf, ih]

theorem lookup_map_replace_ne (t : RateCache) (k k' : Code) (v : RateTable)
    (hne : k' ≠ k) :
    List.lookup k' (t.map fun p => if p.1 = k then (k, v) else p)
      = List.lookup k' t := by
  induction t with
  | nil => simp
  | cons p t ih =>
    obtain ⟨a, b⟩ := p
    by_cases hak : a = k
    · subst hak
      have hf : (k' == a) = false := by simp [hne]
      simp [List.lookup_cons, hf, ih]
    · by_cases hk'a : k' = a
      · subst hk'a; simp [List.lookup_cons, hak]
      · have hf : (k' == a) = false := by simp [hk'a]
        simp [List.lookup_cons, hf, hak, ih]

theorem lookup_map_replace_self (t : RateCache) (k : Code) (v : RateTable)
    (h : (t.lookup k).isSome) :
    List.lookup k (t.map fun p => if p.1 = k then (k, v) else p) = some v := by
  induction t with
  | nil => simp at h
  | cons p t ih =>
    obtain ⟨a, b⟩ := p
    by_cases hak : a = k
    · subst hak; simp [List.lookup_cons]
    · have hf : (k == a) = false := by simp [Ne.symm hak]
      simp only [List.map_cons, if_neg hak, List.lookup_cons, hf] at h ⊢
      exact ih h

theorem lookup_append_singleton_self (t : RateCache) (k : Code) (v : RateTable)
    (h : t.lookup k = none) : List.lookup k (t ++ [(k, v)]) = some v := by
  induction t with
  | nil => simp [List.lookup_cons]
  | cons p t ih =>
    obtain ⟨a, b⟩ := p
    by_cases hak : k = a
    · subst hak; simp [List.lookup_cons] at h
    · have hf : (k == a) = false := by simp [hak]
      simp only [List.lookup_cons, hf] at h
      simp [List.lookup_cons, hf, ih h]

theorem lookup_cacheInsert_self (c : RateCache) (k : Code) (v : RateTable) :
    (cacheInsert c k v).lookup k = some v := by
  unfold cacheInsert
  split
  · rename_i h
    exact lookup_map_replace_self c k v h
  · rename_i h
    exact lookup_append_singleton_self c k v (Option.not_isSome_iff_eq_none.mp h)

theorem lookup_cacheInsert_ne (c : RateCache) (k k' : Code) (v : RateTable)
    (hne : k' ≠ k) : (cacheInsert c k v).lookup k' = c.lookup k' := by
  unfold cacheInsert
  split
  · exact lookup_map_replace_ne c k k' v hne
  · exact lookup_append_singleton_ne c k k' v hne

/-- The keys of the cache, i.e. the list of cached base currencies. -/
def cacheKeys (c : RateCache) : List Code := c.map Prod.fst

/-- The "at most one table per base" invariant: no base code occurs twice. -/
def keysNodup (c : RateCache) : Prop := (cacheKeys c).Nodup

theorem keysNodup_cacheInsert (c : RateCache) (k : Code) (v : RateTable)
    (h : keysNodup c) : keysNodup (cacheInsert c k v) := by
  unfold keysNodup cacheKeys cacheInsert at *
  split
  · rw [List.map_map]
    have he : (Prod.fst ∘ fun p : Code × RateTable => if p.1 = k then (k, v) else p)
        = Prod.fst := by
      funext p
      by_cases hp : p.1 = k
      · simp [hp]
      · simp [hp]
    rw [he]
    exact h
  · rename_i hnone
    have hk : k ∉ c.map Prod.fst := by
      rw [← lookup_eq_none_iff]
      exact Option.not_isSome_iff_eq_none.mp hnone
    simp only [List.map_append, List.map_cons, List.map_nil]
    rw [List.nodup_append]
    exact ⟨h, List.nodup_singleton k, by simpa using fun hx => hk hx⟩

/-! ### Claims -/

/-- C1: with no table cached for `frm`, a distinct target code, and the fetch
of `frm` failing, `getExchangeRate` falls back to the USD pivot: if a USD
table is cached with entries for both codes (the rate for `frm` nonzero), it
returns the cross-rate `usd[tgt] / usd[frm]` with the cache unchanged (no
table for `frm` is stored); if instead no USD table is cached, the fetch
error is rethrown with the cache unchanged. -/
theorem C1_cross_rate_and_rethrow (c : RateCache) (frm tgt : Code)
    (hne : frm ≠ tgt) (hfrm : c.lookup frm = none) :
    (∀ usd q r, c.lookup "USD" = some usd →
      usd.lookup frm = some q → q ≠ 0 → usd.lookup tgt = some r →
      getExchangeRate .fail c frm tgt = (.ok (.num (r / q)), c))
    ∧ (c.lookup "USD" = none →
      getExchangeRate .fail c frm tgt = (.error .fetchErr, c)) := by
  constructor
  · intro usd q r husd hq hq0 hr
    simp [getExchangeRate, hfrm, husd, jsLookup, hq, hr, jsInv, hq0, jsMul,
      div_eq_mul_inv]
  · intro husd
    simp [getExchangeRate, hfrm, husd]

theorem C1_cross_rate_and_rethrow_witness :
    getExchangeRate .fail [("USD", [("JPY", (110 : ℚ)), ("EUR", 3)])] "JPY" "EUR"
      = (.ok (.num (3 / 110)), [("USD", [("JPY", 110), ("EUR", 3)])])
    ∧ getExchangeRate .fail ([] : RateCache) "JPY" "EUR"
      = (.error .fetchErr, []) :=
  ⟨(C1_cross_rate_and_rethrow [("USD", [("JPY", 110), ("EUR", 3)])] "JPY" "EUR"
      (by decide) (by decide)).1 [("JPY", 110), ("EUR", 3)] 110 3
      (by decide) (by decide) (by norm_num) (by decide),
   (C1_cross_rate_and_rethrow [] "JPY" "EUR" (by decide) (by decide)).2 (by decide)⟩

/-- C2 counterexample: the claim says a present entry `table[from][to]` is
returned, but a present entry equal to `0` is falsy in JS, so the code takes
the `||` fallback and returns `1 / table[to][from]` instead (here `1/5`,
not the stored `0`). -/
theorem C2_zero_entry_counterexample :
    (([("AAA", [("BBB", (0 : ℚ))]), ("BBB", [("AAA", 5)])] : RateCache).lookup "AAA"
      = some [("BBB", 0)])
    ∧ (([("BBB", (0 : ℚ))] : RateTable).lookup "BBB" = some 0)
    ∧ (getExchangeRate .fail [("AAA", [("BBB", (0 : ℚ))]), ("BBB", [("AAA", 5)])]
        "AAA" "BBB"
      = (.ok (.num (1 / 5)), [("AAA", [("BBB", 0)]), ("BBB", [("AAA", 5)])]))
    ∧ JsVal.num (1 / 5) ≠ JsVal.num 0 := by
  refine ⟨rfl, rfl, ?_, ?_⟩
  · simp [getExchangeRate, rateFromTable, List.lookup, jsLookup, truthy, jsInv]
  · simp only [ne_eq, JsVal.num.injEq]
    norm_num

/-- C2 (amended): with a table cached for `frm` and a distinct target code,
`getExchangeRate` leaves the cache unchanged and returns `table[frm][tgt]`
when that entry is present and nonzero; when the entry is absent or zero it
evaluates `1 / table[tgt][frm]`: the rational inverse when that entry is
present and nonzero, and a thrown TypeError when no table for `tgt` is
cached at all. -/
theorem C2_direct_or_inverse (fe : Fetched) (c : RateCache) (frm tgt : Code)
    (tf : RateTable) (hne : frm ≠ tgt) (hf : c.lookup frm = some tf) :
    (getExchangeRate fe c frm tgt).2 = c
    ∧ (∀ r, tf.lookup tgt = some r → r ≠ 0 →
        (getExchangeRate fe c frm tgt).1 = .ok (.num r))
    ∧ (tf.lookup tgt = none ∨ tf.lookup tgt = some 0 →
        (∀ tt r', c.lookup tgt = some tt → tt.lookup frm = some r' → r' ≠ 0 →
            (getExchangeRate fe c frm tgt).1 = .ok (.num (1 / r')))
        ∧ (c.lookup tgt = none →
            (getExchangeRate fe c frm tgt).1 = .error .typeErr)) := by
  refine ⟨?_, ?_, ?_⟩
  · simp [getExchangeRate, hf]
  · intro r hr hr0
    simp [getExchangeRate, hf, rateFromTable, jsLookup, hr, truthy, hr0]
  · intro hmiss
    constructor
    · intro tt r' htt hr' hr'0
      rcases hmiss with hm | hm
      · simp [getExchangeRate, hf, rateFromTable, jsLookup, hm, truthy, htt,
          hr', jsInv, hr'0, one_div]
      · simp [getExchangeRate, hf, rateFromTable, jsLookup, hm, truthy, htt,
          hr', jsInv, hr'0, one_div]
    · intro htt
      rcases hmiss with hm | hm
      · simp [getExchangeRate, hf, rateFromTable, jsLookup, hm, truthy, htt]
      · simp [getExchangeRate, hf, rateFromTable, jsLookup, hm, truthy, htt]

theorem C2_direct_or_inverse_witness :
    (getExchangeRate .fail [("USD", [("EUR", (2 : ℚ))])] "USD" "EUR").1
      = .ok (.num 2)
    ∧ (getExchangeRate .fail [("USD", [("GBP", (4 : ℚ))]), ("EUR", [("USD", 8)])]
        "USD" "EUR").1 = .ok (.num (1 / 8)) :=
  ⟨(C2_direct_or_inverse .fail [("USD", [("EUR", 2)])] "USD" "EUR" [("EUR", 2)]
      (by decide) (by decide)).2.1 2 (by decide) (by norm_num),
   ((C2_direct_or_inverse .fail [("USD", [("GBP", 4)]), ("EUR", [("USD", 8)])]
      "USD" "EUR" [("GBP", 4)] (by decide) (by decide)).2.2
      (Or.inl (by decide))).1 [("USD", 8)] 8 (by decide) (by decide)
      (by norm_num)⟩

/-- C6: for an input whose parsed amount is NaN (non-numeric, modelled by
`none`), zero, or negative, `convertCurrency` rejects with the input-error
message; the result holds for every fetch outcome (no network call is made)
and the cache is returned unchanged (neither read nor modified). -/
theorem C6_invalid_amount_rejected (amount : Option ℚ) (frm tgt : Code)
    (fetched : Fetched) (c : RateCache)
    (h : amount = none ∨ ∃ a, amount = some a ∧ a ≤ 0) :
    convertCurrency amount frm tgt fetched c = (.inputError, c) := by
  rcases h with h | ⟨a, rfl, ha⟩
  · subst h; rfl
  · simp [convertCurrency, ha]

theorem C6_invalid_amount_rejected_witness :
    convertCurrency (some 0) "USD" "EUR" .fail [] = (.inputError, []) :=
  C6_invalid_amount_rejected (some 0) "USD" "EUR" .fail []
    (Or.inr ⟨0, rfl, le_refl 0⟩)

/-- C7: for every positive amount `a` and any currency code, converting from
the code to itself shows amount `a` with rate 1, for every fetch outcome and
with the cache untouched: the `from == to` case returns before
`getExchangeRate` is invoked. -/
theorem C7_same_currency_identity (a : ℚ) (code : Code) (fetched : Fetched)
    (c : RateCache) (ha : 0 < a) :
    convertCurrency (some a) code code fetched c
      = (.shown (.num a) (.num 1), c) := by
  simp [convertCurrency, not_le.mpr ha]

theorem C7_same_currency_identity_witness :
    convertCurrency (some 5) "JPY" "JPY" .fail []
      = (.shown (.num 5) (.num 1), []) :=
  C7_same_currency_identity 5 "JPY" .fail [] (by norm_num)

/-- C3 counterexample: base USD is cached and both codes USD and EUR are
present in its table, yet both directions resolve through direct entries of
the two cached tables (2 and 3), whose product is 6, not 1: the claimed
identity does not hold for every cached base and pair of codes in its
table. -/
theorem C3_product_counterexample :
    (([("USD", [("USD", (1 : ℚ)), ("EUR", 2)]), ("EUR", [("USD", 3), ("EUR", 1)])] :
        RateCache).lookup "USD" = some [("USD", 1), ("EUR", 2)])
    ∧ ([("USD", (1 : ℚ)), ("EUR", 2)] : RateTable).lookup "USD" = some 1
    ∧ ([("USD", (1 : ℚ)), ("EUR", 2)] : RateTable).lookup "EUR" = some 2
    ∧ (getExchangeRate .fail
        [("USD", [("USD", (1 : ℚ)), ("EUR", 2)]), ("EUR", [("USD", 3), ("EUR", 1)])]
        "USD" "EUR").1 = .ok (.num 2)
    ∧ (getExchangeRate .fail
        [("USD", [("USD", (1 : ℚ)), ("EUR", 2)]), ("EUR", [("USD", 3), ("EUR", 1)])]
        "EUR" "USD").1 = .ok (.num 3)
    ∧ jsMul (.num 2) (.num 3) = .num 6
    ∧ (6 : ℚ) ≠ 1 := by
  refine ⟨rfl, rfl, rfl, ?_, ?_, ?_, by norm_num⟩
  · simp [getExchangeRate, rateFromTable, List.lookup, jsLookup, truthy]
  · simp [getExchangeRate, rateFromTable, List.lookup, jsLookup, truthy]
  · simp [jsMul]
    norm_num

/-- C3 (amended): the reciprocal identity does hold in the situation the
inverse-fallback formula creates: when one direction hits a direct nonzero
entry `table[x][y] = r` and the reverse direction, with `y` cached but its
table lacking (or zeroing) an `x` entry, falls back to `1 / table[x][y]`,
the two resolved rates are `r` and `1/r`, whose JS product is exactly 1
(exact rational arithmetic; no floating-point tolerance is even needed). -/
theorem C3_inverse_fallback_product_one (fe fe' : Fetched) (c : RateCache)
    (x y : Code) (tx ty : RateTable) (r : ℚ) (hne : x ≠ y)
    (hx : c.lookup x = some tx) (hxy : tx.lookup y = some r) (hr : r ≠ 0)
    (hy : c.lookup y = some ty)
    (hyx : ty.lookup x = none ∨ ty.lookup x = some 0) :
    (getExchangeRate fe c x y).1 = .ok (.num r)
    ∧ (getExchangeRate fe' c y x).1 = .ok (.num (1 / r))
    ∧ jsMul (.num r) (.num (1 / r)) = .num 1 := by
  refine ⟨?_, ?_, ?_⟩
  · simp [getExchangeRate, hx, rateFromTable, jsLookup, hxy, truthy, hr]
  · rcases hyx with hm | hm
    · simp [getExchangeRate, hy, rateFromTable, jsLookup, hm, truthy, hx, hxy,
        jsInv, hr, one_div]
    · simp [getExchangeRate, hy, rateFromTable, jsLookup, hm, truthy, hx, hxy,
        jsInv, hr, one_div]
  · simp only [jsMul, JsVal.num.injEq]
    rw [mul_one_div, div_self hr]

theorem C3_inverse_fallback_product_one_witness :
    (getExchangeRate .fail [("USD", [("EUR", (2 : ℚ))]), ("EUR", [])] "USD" "EUR").1
      = .ok (.num 2)
    ∧ (getExchangeRate .fail [("USD", [("EUR", (2 : ℚ))]), ("EUR", [])] "EUR" "USD").1
      = .ok (.num (1 / 2))
    ∧ jsMul (.num 2) (.num (1 / 2)) = .num 1 :=
  C3_inverse_fallback_product_one .fail .fail
    [("USD", [("EUR", 2)]), ("EUR", [])] "USD" "EUR" [("EUR", 2)] [] 2
    (by decide) (by decide) (by decide) (by norm_num) (by decide)
    (Or.inl (by decide))

/-- C4 counterexample: the primary response is not ok and the secondary
fetch succeeds with a bare table, but the opportunistic EUR fetch then
throws; the catch branch stores the hardcoded fallback table over the
secondary data, so the cache does not reflect the secondary endpoint and the
fallback table IS used. -/
theorem C4_eur_throw_counterexample :
    ((loadExchangeRates (.resp false (.error ()))
        (.resp true (.ok (.bare [("EUR", 2)]))) .netThrow []).1.lookup "USD"
      = some fallbackTable)
    ∧ (loadExchangeRates (.resp false (.error ()))
        (.resp true (.ok (.bare [("EUR", 2)]))) .netThrow []).2 = true
    ∧ fallbackTable ≠ [("EUR", 2)] := by
  refine ⟨rfl, rfl, ?_⟩
  intro hcontra
  exact absurd (congrArg List.length hcontra) (by decide)

/-- C4 (amended): if the primary response is not ok, the secondary fetch
delivers a parseable body (its own ok flag is never checked), and the
opportunistic EUR step does not throw, then the cached USD table is exactly
the secondary data — accepting either a rates-wrapper or a bare mapping —
and the catch branch (fallback table, warning) is not taken. -/
theorem C4_secondary_feeds_cache (body1 : Except Unit ApiResponse)
    (okS : Bool) (data : ApiResponse) (eurF : FetchResult) (c : RateCache)
    (he : eurFetchThrows eurF = false) :
    ((loadExchangeRates (.resp false body1) (.resp okS (.ok data)) eurF c).1.lookup "USD"
      = some (extractRates data))
    ∧ (loadExchangeRates (.resp false body1) (.resp okS (.ok data)) eurF c).2
      = false := by
  rcases eurF with _ | ⟨ok2, body2⟩
  · simp [eurFetchThrows] at he
  · cases ok2 with
    | false =>
      constructor
      · exact lookup_cacheInsert_self c "USD" (extractRates data)
      · rfl
    | true =>
      rcases body2 with e2 | eurData
      · simp [eurFetchThrows] at he
      · constructor
        · have : (cacheInsert (cacheInsert c "USD" (extractRates data)) "EUR"
              (extractRates eurData)).lookup "USD"
              = (cacheInsert c "USD" (extractRates data)).lookup "USD" :=
            lookup_cacheInsert_ne _ "EUR" "USD" _ (by decide)
          rw [show (loadExchangeRates (.resp false body1) (.resp okS (.ok data))
              (.resp true (.ok eurData)) c).1
              = cacheInsert (cacheInsert c "USD" (extractRates data)) "EUR"
              (extractRates eurData) from rfl, this]
          exact lookup_cacheInsert_self c "USD" (extractRates data)
        · rfl

theorem C4_secondary_feeds_cache_witness :
    ((loadExchangeRates (.resp false (.error ()))
        (.resp true (.ok (.wrapped [("EUR", 2)]))) (.resp false (.error ()))
        []).1.lookup "USD" = some (extractRates (.wrapped [("EUR", 2)])))
    ∧ (loadExchangeRates (.resp false (.error ()))
        (.resp true (.ok (.wrapped [("EUR", 2)]))) (.resp false (.error ()))
        []).2 = false :=
  C4_secondary_feeds_cache (.error ()) true (.wrapped [("EUR", 2)])
    (.resp false (.error ())) [] rfl

theorem exists_fallback_of_startupThrows (p s e : FetchResult) (c : RateCache)
    (h : startupThrows p s e = true) :
    ∃ c0, loadExchangeRates p s e c = (cacheInsert c0 "USD" fallbackTable, true) := by
  rcases p with _ | ⟨ok, body⟩
  · exact ⟨c, rfl⟩
  · cases ok with
    | true =>
      rcases body with e1 | data
      · exact ⟨c, rfl⟩
      · rcases e with _ | ⟨ok2, body2⟩
        · exact ⟨cacheInsert c "USD" (extractRates data), rfl⟩
        · cases ok2 with
          | true =>
            rcases body2 with e2 | eur
            · exact ⟨cacheInsert c "USD" (extractRates data), rfl⟩
            · simp [startupThrows, eurFetchThrows] at h
          | false => simp [startupThrows, eurFetchThrows] at h
    | false =>
      rcases s with _ | ⟨okS, bodyS⟩
      · exact ⟨c, rfl⟩
      · rcases bodyS with e2 | data
        · exact ⟨c, rfl⟩
        · rcases e with _ | ⟨ok2, body2⟩
          · exact ⟨cacheInsert c "USD" (extractRates data), rfl⟩
          · cases ok2 with
            | true =>
              rcases body2 with e3 | eur
              · exact ⟨cacheInsert c "USD" (extractRates data), rfl⟩
              · simp [startupThrows, eurFetchThrows] at h
            | false => simp [startupThrows, eurFetchThrows] at h

/-- C5: whenever the startup try-block throws (any network failure or
malformed response, as enumerated by `startupThrows`), `loadExchangeRates`
stores the fixed fallback table under USD, the warning path is taken (and
the function still returns normally — the failure is non-fatal), the
fallback table's domain is exactly EUR, GBP, JPY, AUD, CAD, CHF, CNY, INR,
TRY, USD, and on the resulting cache resolving USD→EUR returns 0.85. -/
theorem C5_fallback_on_startup_exception (p s e : FetchResult) (c : RateCache)
    (fe : Fetched) (h : startupThrows p s e = true) :
    ((loadExchangeRates p s e c).1.lookup "USD" = some fallbackTable)
    ∧ (loadExchangeRates p s e c).2 = true
    ∧ fallbackTable.map Prod.fst
        = ["EUR", "GBP", "JPY", "AUD", "CAD", "CHF", "CNY", "INR", "TRY", "USD"]
    ∧ (getExchangeRate fe (loadExchangeRates p s e c).1 "USD" "EUR").1
        = .ok (.num 0.85) := by
  obtain ⟨c0, hc0⟩ := exists_fallback_of_startupThrows p s e c h
  have husd : (loadExchangeRates p s e c).1.lookup "USD" = some fallbackTable := by
    rw [hc0]
    exact lookup_cacheInsert_self c0 "USD" fallbackTable
  have hl : jsLookup fallbackTable "EUR" = .num 0.85 := rfl
  refine ⟨husd, by rw [hc0], rfl, ?_⟩
  simp [getExchangeRate, husd, rateFromTable, hl, truthy]
  norm_num

theorem C5_fallback_on_startup_exception_witness :
    ((loadExchangeRates .netThrow .netThrow .netThrow []).1.lookup "USD"
      = some fallbackTable)
    ∧ (loadExchangeRates .netThrow .netThrow .netThrow []).2 = true
    ∧ (getExchangeRate .fail
        (loadExchangeRates .netThrow .netThrow .netThrow []).1 "USD" "EUR").1
      = .ok (.num 0.85) := by
  obtain ⟨h1, h2, _, h4⟩ :=
    C5_fallback_on_startup_exception .netThrow .netThrow .netThrow [] .fail rfl
  exact ⟨h1, h2, h4⟩

/-- C8: currency codes are never validated against a known set: for any
code `tgt` appearing neither in the cached table for `frm` nor as a cached
base, the property miss gives `undefined`, the `||` fallback then reads a
property of the missing table for `tgt`, and the resulting TypeError escapes
`getExchangeRate`; on the conversion path `convertCurrency` catches it and
surfaces the generic conversion-failed outcome instead of rejecting the code
at the boundary. -/
theorem C8_unknown_code_propagates (a : ℚ) (frm tgt : Code) (fe : Fetched)
    (c : RateCache) (tf : RateTable) (ha : 0 < a) (hne : frm ≠ tgt)
    (hf : c.lookup frm = some tf) (hmiss : tf.lookup tgt = none)
    (htgt : c.lookup tgt = none) :
    (getExchangeRate fe c frm tgt).1 = .error .typeErr
    ∧ convertCurrency (some a) frm tgt fe c = (.convFailed, c) := by
  have hg : getExchangeRate fe c frm tgt = (.error .typeErr, c) := by
    simp [getExchangeRate, hf, rateFromTable, jsLookup, hmiss, truthy, htgt]
  refine ⟨by rw [hg], ?_⟩
  simp [convertCurrency, not_le.mpr ha, hne, hg]

theorem C8_unknown_code_propagates_witness :
    (getExchangeRate .fail [("USD", [("EUR", (2 : ℚ))])] "USD" "ZZZ").1
      = .error .typeErr
    ∧ convertCurrency (some 5) "USD" "ZZZ" .fail [("USD", [("EUR", (2 : ℚ))])]
      = (.convFailed, [("USD", [("EUR", 2)])]) :=
  C8_unknown_code_propagates 5 "USD" "ZZZ" .fail [("USD", [("EUR", 2)])]
    [("EUR", 2)] (by norm_num) (by decide) (by decide) (by decide) (by decide)

/-- C9: the cache keeps at most one table per base code — an assignment for
an existing base replaces the old table in place (last fetch wins), and both
`getExchangeRate` and `loadExchangeRates` preserve the no-duplicate-keys
invariant of the cache for every fetch outcome. -/
theorem C9_at_most_one_table_last_wins (c : RateCache) (k : Code)
    (v : RateTable) (fe : Fetched) (frm tgt : Code) (p s e : FetchResult)
    (h : keysNodup c) :
    (cacheInsert c k v).lookup k = some v
    ∧ keysNodup (cacheInsert c k v)
    ∧ keysNodup (getExchangeRate fe c frm tgt).2
    ∧ keysNodup (loadExchangeRates p s e c).1 := by
  refine ⟨lookup_cacheInsert_self c k v, keysNodup_cacheInsert c k v h, ?_, ?_⟩
  · rcases hc : c.lookup frm with _ | t
    · rcases fe with _ | data
      · rcases hu : c.lookup "USD" with _ | u
        · simp [getExchangeRate, hc, hu, h]
        · simp [getExchangeRate, hc, hu, h]
      · simp only [getExchangeRate, hc]
        exact keysNodup_cacheInsert c frm (extractRates data) h
    · simp [getExchangeRate, hc, h]
  · rcases p with _ | ⟨ok, body⟩
    · exact keysNodup_cacheInsert c _ _ h
    · cases ok with
      | true =>
        rcases body with e1 | data
        · exact keysNodup_cacheInsert c _ _ h
        · rcases e with _ | ⟨ok2, body2⟩
          · exact keysNodup_cacheInsert _ _ _ (keysNodup_cacheInsert c _ _ h)
          · cases ok2 with
            | false => exact keysNodup_cacheInsert c _ _ h
            | true =>
              rcases body2 with e2 | eur
              · exact keysNodup_cacheInsert _ _ _ (keysNodup_cacheInsert c _ _ h)
              · exact keysNodup_cacheInsert _ _ _ (keysNodup_cacheInsert c _ _ h)
      | false =>
        rcases s with _ | ⟨okS, bodyS⟩
        · exact keysNodup_cacheInsert c _ _ h
        · rcases bodyS with e2 | data
          · exact keysNodup_cacheInsert c _ _ h
          · rcases e with _ | ⟨ok2, body2⟩
            · exact keysNodup_cacheInsert _ _ _ (keysNodup_cacheInsert c _ _ h)
            · cases ok2 with
              | false => exact keysNodup_cacheInsert c _ _ h
              | true =>
                rcases body2 with e3 | eur
                · exact keysNodup_cacheInsert _ _ _ (keysNodup_cacheInsert c _ _ h)
                · exact keysNodup_cacheInsert _ _ _ (keysNodup_cacheInsert c _ _ h)

theorem C9_at_most_one_table_last_wins_witness :
    (cacheInsert [("USD", [("EUR", (2 : ℚ))])] "USD" [("EUR", 3)]).lookup "USD"
      = some [("EUR", 3)]
    ∧ keysNodup (cacheInsert [("USD", [("EUR", (2 : ℚ))])] "USD" [("EUR", 3)])
    ∧ keysNodup (getExchangeRate .fail [("USD", [("EUR", (2 : ℚ))])] "USD" "EUR").2
    ∧ keysNodup (loadExchangeRates .netThrow .netThrow .netThrow
        [("USD", [("EUR", (2 : ℚ))])]).1 :=
  C9_at_most_one_table_last_wins [("USD", [("EUR", 2)])] "USD" [("EUR", 3)]
    .fail "USD" "EUR" .netThrow .netThrow .netThrow
    (by simp [keysNodup, cacheKeys])

/-- C10: when the USD fetch and parse succeed at startup but the
opportunistic EUR step then throws (either its fetch throws or its ok
response fails to parse), the catch branch overwrites the freshly cached USD
table with the hardcoded fallback table, so the successful USD result is not
preserved on partial failure. -/
theorem C10_eur_failure_overwrites_usd (s : FetchResult) (data : ApiResponse)
    (c : RateCache) (e : FetchResult)
    (he : e = .netThrow ∨ ∃ u, e = .resp true (.error u)) :
    ((loadExchangeRates (.resp true (.ok data)) s e c).1.lookup "USD"
      = some fallbackTable)
    ∧ (loadExchangeRates (.resp true (.ok data)) s e c).2 = true
    ∧ (extractRates data ≠ fallbackTable →
        (loadExchangeRates (.resp true (.ok data)) s e c).1.lookup "USD"
          ≠ some (extractRates data)) := by
  have hres : loadExchangeRates (.resp true (.ok data)) s e c
      = (cacheInsert (cacheInsert c "USD" (extractRates data)) "USD"
          fallbackTable, true) := by
    rcases he with rfl | ⟨u, rfl⟩
    · rfl
    · rfl
  refine ⟨?_, by rw [hres], ?_⟩
  · rw [hres]
    exact lookup_cacheInsert_self _ "USD" fallbackTable
  · intro hneq
    rw [hres]
    rw [lookup_cacheInsert_self _ "USD" fallbackTable]
    intro hcontra
    exact hneq (Option.some.inj hcontra).symm

theorem C10_eur_failure_overwrites_usd_witness :
    ((loadExchangeRates (.resp true (.ok (.bare [("EUR", 2)]))) .netThrow
        .netThrow []).1.lookup "USD" = some fallbackTable)
    ∧ (loadExchangeRates (.resp true (.ok (.bare [("EUR", 2)]))) .netThrow
        .netThrow []).2 = true
    ∧ (loadExchangeRates (.resp true (.ok (.bare [("EUR", 2)]))) .netThrow
        .netThrow []).1.lookup "USD" ≠ some (extractRates (.bare [("EUR", 2)])) := by
  obtain ⟨h1, h2, h3⟩ := C10_eur_failure_overwrites_usd .netThrow
    (.bare [("EUR", 2)]) [] .netThrow (Or.inl rfl)
  refine ⟨h1, h2, h3 ?_⟩
  intro hcontra
  exact absurd (congrArg List.length hcontra) (by decide)
